import Mathlib

/-!
# examples/http-handler-context/main.go

A shallow embedding of the deadline middleware, the request handler and the
simulated task, over a logical clock counted in nanoseconds.

Library behaviour the program relies on is modelled next to the program:

* `context.WithTimeout` / `context.WithDeadline` (package `context`),
* `errors.Is` (package `errors`),
* the `select` statement over `time.After` and `ctx.Done()`,
* `http.ResponseWriter`, as the log of the calls made on it.

Straight-line code takes no time on the logical clock: only the `select` of the
task waits. What the Go runtime decides is an explicit argument: the random draw
of `rand.Float64`, the latency with which the goroutine of an expired deadline
closes `Done()`, and the choice made when two events are ready at the same
instant.
-/

namespace HttpHandlerContext

/-! ## Time -/

/-! Instants of the logical clock and durations (`time.Duration`) are signed
counts of nanoseconds, both of type `Int`. -/

/-- The constant `time.Second`. -/
def second : Int := 1000000000

/-! ## Errors -/

/-- Error values: the two sentinel errors of package `context`, any other
error, and an error wrapping another one (`Unwrap`). -/
inductive GoError where
  | canceled
  | deadlineExceeded
  | other (msg : String)
  | wrapped (msg : String) (inner : GoError)
  deriving DecidableEq, Repr

/-- The function `errors.Is`: `err` or an error in its `Unwrap` chain equals
`target`. -/
def errorsIs (err target : GoError) : Bool :=
  match err with
  | .wrapped m inner => decide (GoError.wrapped m inner = target) || errorsIs inner target
  | e => decide (e = target)

/-! ## Cancellation scopes (`context.Context`) -/

/-- Why a scope stopped. -/
inductive Reason where
  | deadline
  | cancelled
  deriving DecidableEq, Repr

/-- The value `ctx.Err()` reports once the scope has stopped for reason `r`. -/
def Reason.err : Reason → GoError
  | .deadline => GoError.deadlineExceeded
  | .cancelled => GoError.canceled

/-- A cancellation scope seen over the whole run: the deadline `ctx.Deadline()`
reports, if any, and the instant from which `ctx.Done()` is closed together with
the reason `ctx.Err()` reports from then on, if the scope ever stops. -/
structure Scope where
  deadline : Option Int
  stop : Option (Int × Reason)
  deriving DecidableEq, Repr

/-- The scope `context.Background()`: no deadline, never stopped. -/
def background : Scope := { deadline := none, stop := none }

/-- The delay with which an expired deadline closes `Done()`. The runtime
notices the expired deadline `1 + fireLat` nanoseconds after it, with `fireLat`
the latency of the scheduler, below one second; it delivers the `time.After`
timers that are due by then, and the goroutine it starts for the deadline
(`time.AfterFunc`) closes `Done()` after that. -/
def closeDelay (fireLat : Fin 1000000000) : Int := 2 + fireLat.val

/-- A scope that carries a deadline stops no later than its expired deadline
closes `Done()`. -/
def Scope.wellFormed (s : Scope) (fireLat : Fin 1000000000) : Bool :=
  match s.deadline, s.stop with
  | some d, some (t, _) => decide (t ≤ d + closeDelay fireLat)
  | some _, none => false
  | none, _ => true

/-- Whether `ctx.Done()` is closed at instant `t`. -/
def Scope.stoppedAt (s : Scope) (t : Int) : Bool :=
  match s.stop with
  | some (ts, _) => decide (ts ≤ t)
  | none => false

/-- The value of `ctx.Err()` at instant `t`: `none` is `nil`. -/
def Scope.errAt (s : Scope) (t : Int) : Option GoError :=
  match s.stop with
  | some (ts, r) => if ts ≤ t then some r.err else none
  | none => none

/-- Calling the `cancel` function of a derived scope at instant `t`: a scope
that has not stopped by `t` stops at `t` with reason `cancelled`; a scope that
has already stopped is left as it is. -/
def Scope.cancel (s : Scope) (t : Int) : Scope :=
  match s.stop with
  | some (ts, _) => if ts ≤ t then s else { s with stop := some (t, Reason.cancelled) }
  | none => { s with stop := some (t, Reason.cancelled) }

/-- The instant at which the deadline `d` of a scope derived at `now` closes
`Done()`. A deadline already passed at `now` cancels the scope inside
`WithDeadline` itself. Otherwise the goroutine that `time.AfterFunc` starts once
`d` has passed closes `Done()`, `closeDelay` after `d`; a `time.After` timer due
before that instant is delivered first. -/
def deadlineStop (d : Int) (now : Int) (fireLat : Fin 1000000000) : Int :=
  if d ≤ now then d else d + closeDelay fireLat

/-- When a scope with its own timer at `d`, derived at `now` from `parent`, stops.
A parent already stopped at `now` stops the child with the parent's reason
(`propagateCancel` runs before the timer is looked at). Otherwise the child
stops at whichever comes first, the parent's stop or the instant its own
deadline closes `Done()`; `parentFirst` decides when both fall on the same
instant. -/
def timerStop (parent : Scope) (d : Int) (now : Int) (fireLat : Fin 1000000000)
    (parentFirst : Bool) : Option (Int × Reason) :=
  match parent.stop with
  | none => some (deadlineStop d now fireLat, Reason.deadline)
  | some (tp, rp) =>
    if tp ≤ now then some (tp, rp)
    else if tp < deadlineStop d now fireLat then some (tp, rp)
    else if deadlineStop d now fireLat < tp then some (deadlineStop d now fireLat, Reason.deadline)
    else if parentFirst then some (tp, rp)
    else some (deadlineStop d now fireLat, Reason.deadline)

/-- The function `context.WithDeadline(parent, d)` called at instant `now`,
before the returned `cancel` is called. A parent whose own deadline is before
`d` gives `WithCancel(parent)`: the child keeps the parent's deadline and stops
when the parent stops. Otherwise the child has deadline `d` and its own timer. -/
def withDeadline (parent : Scope) (d : Int) (now : Int) (fireLat : Fin 1000000000)
    (parentFirst : Bool) : Scope :=
  match parent.deadline with
  | some cur =>
    if cur < d then parent
    else { deadline := some d, stop := timerStop parent d now fireLat parentFirst }
  | none => { deadline := some d, stop := timerStop parent d now fireLat parentFirst }

/-- The function `context.WithTimeout(parent, timeout)` called at instant `now`:
`WithDeadline(parent, time.Now().Add(timeout))`. -/
def withTimeout (parent : Scope) (timeout : Int) (now : Int) (fireLat : Fin 1000000000)
    (parentFirst : Bool) : Scope :=
  withDeadline parent (now + timeout) now fireLat parentFirst

/-! ## Requests, responses, handlers -/

/-- A call made on the `http.ResponseWriter`. -/
inductive RespEvent where
  | writeHeader (code : Nat)
  | write (body : String)
  deriving DecidableEq, Repr

/-- The response writer, as the log of the calls made on it, oldest first. -/
abbrev ResponseWriter := List RespEvent

/-- The status of the response: the code of the first `WriteHeader`; a `Write`
that comes first sends status 200. -/
def responseStatus : ResponseWriter → Option Nat
  | [] => none
  | RespEvent.writeHeader c :: _ => some c
  | RespEvent.write _ :: _ => some 200

/-- How many times `WriteHeader` was called. -/
def headerWrites (w : ResponseWriter) : Nat :=
  (w.filter fun e => match e with | RespEvent.writeHeader _ => true | _ => false).length

/-- How many times `Write` was called. -/
def bodyWrites (w : ResponseWriter) : Nat :=
  (w.filter fun e => match e with | RespEvent.write _ => true | _ => false).length

/-- The part of `*http.Request` the program reads: its scope, and the method and
path that identify it. -/
structure Request where
  ctx : Scope
  method : String
  path : String
  deriving DecidableEq, Repr

/-- The method `r.WithContext(ctx)`. -/
def Request.withContext (r : Request) (ctx : Scope) : Request := { r with ctx := ctx }

/-- How a call came back: by returning, or by a panic that is still unwinding. -/
inductive ExitKind where
  | returned
  | panicked
  deriving DecidableEq, Repr

/-- What a call of `ServeHTTP` leaves behind: the response writer, how the call
came back, and the instant at which it did. -/
structure Served where
  w : ResponseWriter
  how : ExitKind
  finish : Int
  deriving DecidableEq, Repr

/-- An `http.Handler`: `ServeHTTP(w, r)` entered at a given instant. -/
abbrev Handler := ResponseWriter → Request → Int → Served

/-! ## The program -/

/-- The constant `timeout` of `main` (line 17): `time.Second * 5`. -/
def mainTimeout : Int := second * 5

/-- Lines 65-72 of `longRunningTask`: the duration chosen from the draw `x` of
`rand.Float64()`. -/
def taskDuration (x : ℚ) : Int :=
  if x > 1 / 2 then 10 * second else 1 * second

/-- The instant from which the channel of `time.After(dur)`, created at
`start`, can be received from: `start + dur`, or `start` itself when `dur` is
not positive. -/
def timerReady (start : Int) (dur : Int) : Int := max (start + dur) start

/-- The instant from which a `select` entered at `start` can receive from the
`Done()` channel of a scope stopped at `ts`: `ts`, or `start` itself when the
scope stopped earlier. -/
def doneReady (start : Int) (ts : Int) : Int := max ts start

/-- Lines 75-80 of `longRunningTask`: the `select` over `time.After(dur)` and
`ctx.Done()`, entered at instant `start`. The case that is ready first is
taken; when both are ready at the same instant `select` picks either one, and
`timerFirst` is that pick. The result is the returned error (`none` is `nil`)
and the instant of the return. -/
def awaitTimerOrDone (ctx : Scope) (start : Int) (dur : Int) (timerFirst : Bool) :
    Option GoError × Int :=
  match ctx.stop with
  | none => (none, timerReady start dur)
  | some (ts, r) =>
    if timerReady start dur < doneReady start ts then (none, timerReady start dur)
    else if doneReady start ts < timerReady start dur then (some r.err, doneReady start ts)
    else if timerFirst then (none, timerReady start dur)
    else (some r.err, doneReady start ts)

/-- The function `longRunningTask(ctx)` entered at instant `start`, with `x`
the draw of `rand.Float64()`. -/
def longRunningTask (ctx : Scope) (start : Int) (x : ℚ) (timerFirst : Bool) :
    Option GoError × Int :=
  awaitTimerOrDone ctx start (taskDuration x) timerFirst

/-- Lines 44-58 of `longRunningTaskHandler`: the calls made on `w` for the
result `err` of the task. -/
def writeOutcome (w : ResponseWriter) (err : Option GoError) : ResponseWriter :=
  match err with
  | some e =>
    if errorsIs e GoError.deadlineExceeded then
      w ++ [RespEvent.writeHeader 504]
    else
      w ++ [RespEvent.writeHeader 500]
  | none => w ++ [RespEvent.writeHeader 200]

/-- The function `longRunningTaskHandler(w, r)` entered at instant `start`. -/
def longRunningTaskHandler (x : ℚ) (timerFirst : Bool) : Handler :=
  fun w r start =>
    let res := longRunningTask r.ctx start x timerFirst
    { w := writeOutcome w res.1, how := ExitKind.returned, finish := res.2 }

/-- What the wrapping handler of `contextMiddleware` does, in order. -/
inductive Event where
  | derive (ctx : Scope) (t : Int)
  | enter (r : Request) (t : Int)
  | leave (how : ExitKind) (t : Int)
  | release (ctx : Scope) (t : Int)
  deriving DecidableEq, Repr

/-- Whether the event is a call of `next.ServeHTTP`. -/
def Event.isEnter : Event → Bool
  | Event.enter _ _ => true
  | _ => false

/-- Whether the event is a call of `cancel`. -/
def Event.isRelease : Event → Bool
  | Event.release _ _ => true
  | _ => false

/-- One run of the wrapping handler: its events and what it leaves behind. -/
structure MwRun where
  trace : List Event
  served : Served
  deriving DecidableEq, Repr

/-- The handler returned by `contextMiddleware(timeout)(next)` (lines 28-38),
entered at instant `now`, with its events recorded.

* line 30: `ctx` is derived at `now`;
* line 31: `cancel` is deferred, so it runs when the function exits, on a
  return and on a panic alike;
* line 34: the request is rebound to `ctx`;
* line 37: `next.ServeHTTP` is entered;
* at exit the deferred `cancel` runs, and a panic of `next` keeps unwinding. -/
def contextMiddlewareRun (timeout : Int) (next : Handler) (fireLat : Fin 1000000000)
    (parentFirst : Bool) (w : ResponseWriter) (r : Request) (now : Int) : MwRun :=
  let ctx := withTimeout r.ctx timeout now fireLat parentFirst
  let r2 := r.withContext ctx
  let out := next w r2 now
  { trace :=
      [Event.derive ctx now, Event.enter r2 now, Event.leave out.how out.finish,
        Event.release ctx out.finish]
    served := out }

/-- The function `contextMiddleware(timeout)(next)` as a handler. -/
def contextMiddleware (timeout : Int) (fireLat : Fin 1000000000) (parentFirst : Bool)
    (next : Handler) : Handler :=
  fun w r now => (contextMiddlewareRun timeout next fireLat parentFirst w r now).served

/-- The derived scopes whose `cancel` has not been called, after the events
`es`, starting from `live`. -/
def unreleased (live : List Scope) : List Event → List Scope
  | [] => live
  | Event.derive ctx _ :: es => unreleased (ctx :: live) es
  | Event.release ctx _ :: es => unreleased (live.erase ctx) es
  | _ :: es => unreleased live es

/-- One inbound request: what the wrapping handler is entered with, and what the
scheduler decides during it. -/
structure Inbound where
  w : ResponseWriter
  r : Request
  now : Int
  fireLat : Fin 1000000000
  parentFirst : Bool

/-- The events of requests served one after the other. -/
def serveAll (timeout : Int) (next : Handler) : List Inbound → List Event
  | [] => []
  | q :: qs =>
    (contextMiddlewareRun timeout next q.fireLat q.parentFirst q.w q.r q.now).trace
      ++ serveAll timeout next qs

/-! ## Auxiliary facts -/

theorem taskDuration_long (x : ℚ) (h : x > 1 / 2) : taskDuration x = 10 * second := by
  unfold taskDuration
  rw [if_pos h]

theorem taskDuration_short (x : ℚ) (h : x ≤ 1 / 2) : taskDuration x = 1 * second := by
  unfold taskDuration
  rw [if_neg (not_lt.mpr h)]

theorem taskDuration_cases (x : ℚ) :
    taskDuration x = 10000000000 ∨ taskDuration x = 1000000000 := by
  unfold taskDuration second
  split
  · left; rfl
  · right; rfl

theorem await_timer_first (ctx : Scope) (start : Int) (d : Int) (tf : Bool)
    (hd : 0 ≤ d) (h : ∀ ts r, ctx.stop = some (ts, r) → start + d < ts) :
    awaitTimerOrDone ctx start d tf = (none, start + d) := by
  unfold awaitTimerOrDone timerReady doneReady
  have hm : max (start + d) start = start + d := by omega
  cases hs : ctx.stop with
  | none => simp [hm]
  | some p =>
    obtain ⟨ts, r⟩ := p
    have h1 := h ts r hs
    have hlt : start + d < max ts start := by omega
    simp [hm, hlt]

theorem await_done_first (ctx : Scope) (start : Int) (d : Int) (tf : Bool)
    (ts : Int) (r : Reason) (hs : ctx.stop = some (ts, r)) (hd : 0 < d)
    (h : ts < start + d) :
    awaitTimerOrDone ctx start d tf = (some r.err, max ts start) := by
  unfold awaitTimerOrDone timerReady doneReady
  have hm : max (start + d) start = start + d := by omega
  have h1 : ¬ (start + d < max ts start) := by omega
  have h2 : max ts start < start + d := by omega
  simp [hs, hm, h1, h2]

theorem await_result (ctx : Scope) (start : Int) (d : Int) (tf : Bool) :
    (awaitTimerOrDone ctx start d tf).1 = none ∨
      ∃ ts r, ctx.stop = some (ts, r) ∧ (awaitTimerOrDone ctx start d tf).1 = some r.err := by
  unfold awaitTimerOrDone
  cases hs : ctx.stop with
  | none => left; rfl
  | some p =>
    obtain ⟨ts, r⟩ := p
    dsimp only
    split_ifs
    · left; rfl
    · right; exact ⟨ts, r, rfl, rfl⟩
    · left; rfl
    · right; exact ⟨ts, r, rfl, rfl⟩

theorem writeOutcome_ok (w : ResponseWriter) :
    writeOutcome w none = w ++ [RespEvent.writeHeader 200] := rfl

theorem writeOutcome_deadline (w : ResponseWriter) :
    writeOutcome w (some GoError.deadlineExceeded) = w ++ [RespEvent.writeHeader 504] := rfl

theorem writeOutcome_canceled (w : ResponseWriter) :
    writeOutcome w (some GoError.canceled) = w ++ [RespEvent.writeHeader 500] := rfl

theorem wrapped_served (timeout : Int) (fl : Fin 1000000000) (pf : Bool) (x : ℚ) (tf : Bool)
    (w : ResponseWriter) (r : Request) (now : Int) :
    (contextMiddleware timeout fl pf (longRunningTaskHandler x tf) w r now).w =
      writeOutcome w
        (awaitTimerOrDone (withTimeout r.ctx timeout now fl pf) now (taskDuration x) tf).1 :=
  rfl

theorem deadlineStop_cases (d now : Int) (fl : Fin 1000000000) :
    (d ≤ now ∧ deadlineStop d now fl = d) ∨
      (now < d ∧ deadlineStop d now fl = d + closeDelay fl) := by
  unfold deadlineStop
  by_cases h : d ≤ now
  · left; rw [if_pos h]; exact ⟨h, rfl⟩
  · right; rw [if_neg h]; exact ⟨by omega, rfl⟩

theorem closeDelay_pos (fl : Fin 1000000000) : 0 < closeDelay fl := by
  unfold closeDelay
  omega

theorem closeDelay_le (fl : Fin 1000000000) : closeDelay fl ≤ 1000000001 := by
  unfold closeDelay
  have := fl.isLt
  omega

theorem deadlineStop_le (d now : Int) (fl : Fin 1000000000) :
    deadlineStop d now fl ≤ d + closeDelay fl := by
  have hp := closeDelay_pos fl
  rcases deadlineStop_cases d now fl with ⟨-, h⟩ | ⟨-, h⟩
  · rw [h]; omega
  · rw [h]

theorem withTimeout_cases (parent : Scope) (timeout now : Int) (fl : Fin 1000000000)
    (pf : Bool) :
    ((∃ cur, parent.deadline = some cur ∧ cur < now + timeout) ∧
        withTimeout parent timeout now fl pf = parent) ∨
      withTimeout parent timeout now fl pf =
        { deadline := some (now + timeout),
          stop := timerStop parent (now + timeout) now fl pf } := by
  unfold withTimeout withDeadline
  cases hd : parent.deadline with
  | none => right; rfl
  | some cur =>
    dsimp only
    by_cases hc : cur < now + timeout
    · left; rw [if_pos hc]; exact ⟨⟨cur, rfl, hc⟩, rfl⟩
    · right; rw [if_neg hc]

theorem timerStop_cases (parent : Scope) (d now : Int) (fl : Fin 1000000000) (pf : Bool) :
    (parent.stop = none ∧
        timerStop parent d now fl pf = some (deadlineStop d now fl, Reason.deadline)) ∨
      (∃ tp rp, parent.stop = some (tp, rp) ∧
        ((timerStop parent d now fl pf = some (tp, rp) ∧
            (tp ≤ now ∨ tp ≤ deadlineStop d now fl)) ∨
          (timerStop parent d now fl pf = some (deadlineStop d now fl, Reason.deadline) ∧
            now < tp ∧ deadlineStop d now fl ≤ tp))) := by
  unfold timerStop
  generalize deadlineStop d now fl = own
  cases hs : parent.stop with
  | none => left; exact ⟨rfl, rfl⟩
  | some p =>
    obtain ⟨tp, rp⟩ := p
    right
    refine ⟨tp, rp, rfl, ?_⟩
    dsimp only
    split_ifs
    · left; exact ⟨rfl, by omega⟩
    · left; exact ⟨rfl, by omega⟩
    · right; exact ⟨rfl, by omega, by omega⟩
    · left; exact ⟨rfl, by omega⟩
    · right; exact ⟨rfl, by omega, by omega⟩

theorem derived_stop_after (parent : Scope) (timeout now : Int) (fl : Fin 1000000000)
    (pf : Bool) (T : Int)
    (hq : ∀ tp rp, parent.stop = some (tp, rp) → T < tp)
    (hT : T < deadlineStop (now + timeout) now fl) :
    ∀ ts rs, (withTimeout parent timeout now fl pf).stop = some (ts, rs) → T < ts := by
  intro ts rs
  rcases withTimeout_cases parent timeout now fl pf with ⟨-, h⟩ | h <;> rw [h]
  · exact hq ts rs
  · dsimp only
    rcases timerStop_cases parent (now + timeout) now fl pf with
      ⟨-, h2⟩ | ⟨tp, rp, hs, ⟨h2, -⟩ | ⟨h2, -⟩⟩
      <;> rw [h2] <;> intro h3 <;> simp only [Option.some.injEq, Prod.mk.injEq] at h3
    · omega
    · have := hq tp rp hs
      omega
    · omega

theorem derived_reason_deadline (parent : Scope) (timeout now : Int) (fl : Fin 1000000000)
    (pf : Bool)
    (hq : ∀ tp rp, parent.stop = some (tp, rp) → rp = Reason.deadline) :
    ∀ ts rs, (withTimeout parent timeout now fl pf).stop = some (ts, rs) →
      rs = Reason.deadline := by
  intro ts rs
  rcases withTimeout_cases parent timeout now fl pf with ⟨-, h⟩ | h <;> rw [h]
  · exact hq ts rs
  · dsimp only
    rcases timerStop_cases parent (now + timeout) now fl pf with
      ⟨-, h2⟩ | ⟨tp, rp, hs, ⟨h2, -⟩ | ⟨h2, -⟩⟩
      <;> rw [h2] <;> intro h3 <;> simp only [Option.some.injEq, Prod.mk.injEq] at h3
    · exact h3.2.symm
    · rw [← h3.2]; exact hq tp rp hs
    · exact h3.2.symm

theorem derived_stops_by_deadline (parent : Scope) (timeout now : Int)
    (fl : Fin 1000000000) (pf : Bool)
    (hwf : parent.wellFormed fl = true)
    (hq : ∀ tp, parent.stop = some (tp, Reason.cancelled) →
      now < tp ∧ now + timeout + closeDelay fl < tp) :
    ∃ ts, (withTimeout parent timeout now fl pf).stop = some (ts, Reason.deadline) ∧
      (ts ≤ now + timeout + closeDelay fl ∨ ts ≤ now) := by
  have hown := deadlineStop_le (now + timeout) now fl
  rcases withTimeout_cases parent timeout now fl pf with ⟨⟨cur, hd, hc⟩, h⟩ | h <;> rw [h]
  · unfold Scope.wellFormed at hwf
    rw [hd] at hwf
    cases hs : parent.stop with
    | none => rw [hs] at hwf; cases hwf
    | some p =>
      obtain ⟨tp, rp⟩ := p
      rw [hs] at hwf
      have hle : tp ≤ cur + closeDelay fl := of_decide_eq_true hwf
      cases rp with
      | deadline => exact ⟨tp, rfl, Or.inl (by omega)⟩
      | cancelled =>
        have h1 := hq tp hs
        omega
  · dsimp only
    rcases timerStop_cases parent (now + timeout) now fl pf with
      ⟨-, h2⟩ | ⟨tp, rp, hs, ⟨h2, h4⟩ | ⟨h2, -⟩⟩ <;> rw [h2]
    · exact ⟨_, rfl, Or.inl hown⟩
    · cases rp with
      | deadline =>
        refine ⟨tp, rfl, ?_⟩
        rcases h4 with h4 | h4
        · right; exact h4
        · left; omega
      | cancelled =>
        have h1 := hq tp hs
        omega
    · exact ⟨_, rfl, Or.inl hown⟩

theorem derived_stops_no_later (parent : Scope) (timeout now : Int) (fl : Fin 1000000000)
    (pf : Bool) :
    ∀ tp rp, parent.stop = some (tp, rp) →
      ∃ tc rc, (withTimeout parent timeout now fl pf).stop = some (tc, rc) ∧ tc ≤ tp := by
  intro tp rp hs
  rcases withTimeout_cases parent timeout now fl pf with ⟨-, h⟩ | h <;> rw [h]
  · exact ⟨tp, rp, hs, le_refl _⟩
  · dsimp only
    rcases timerStop_cases parent (now + timeout) now fl pf with
      ⟨h1, -⟩ | ⟨tp2, rp2, hs2, ⟨h2, -⟩ | ⟨h2, -, h5⟩⟩
    · rw [hs] at h1; cases h1
    · rw [hs] at hs2
      cases hs2
      exact ⟨tp, rp, h2, le_refl _⟩
    · rw [hs] at hs2
      cases hs2
      exact ⟨_, _, h2, h5⟩

theorem derived_deadline (parent : Scope) (timeout now : Int) (fl : Fin 1000000000)
    (pf : Bool) :
    (withTimeout parent timeout now fl pf).deadline =
      some (match parent.deadline with
        | some cur => if cur < now + timeout then cur else now + timeout
        | none => now + timeout) := by
  unfold withTimeout withDeadline
  cases hd : parent.deadline with
  | none => rfl
  | some cur =>
    dsimp only
    by_cases hc : cur < now + timeout
    · rw [if_pos hc, if_pos hc]; exact hd
    · rw [if_neg hc, if_neg hc]

theorem taskDuration_pos (x : ℚ) : (0 : Int) < taskDuration x := by
  rcases taskDuration_cases x with h | h <;> rw [h] <;> decide

theorem wrapped_200 (timeout : Int) (fl : Fin 1000000000) (pf : Bool) (x : ℚ) (tf : Bool)
    (w : ResponseWriter) (r : Request) (now : Int)
    (hle : taskDuration x ≤ timeout)
    (hquiet : ∀ tp rp, r.ctx.stop = some (tp, rp) → now + taskDuration x < tp) :
    (contextMiddleware timeout fl pf (longRunningTaskHandler x tf) w r now).w =
      w ++ [RespEvent.writeHeader 200] := by
  have hpos := taskDuration_pos x
  have hcd := closeDelay_pos fl
  have hT : now + taskDuration x < deadlineStop (now + timeout) now fl := by
    rcases deadlineStop_cases (now + timeout) now fl with ⟨h1, -⟩ | ⟨-, h2⟩
    · omega
    · rw [h2]; omega
  rw [wrapped_served,
    await_timer_first _ now (taskDuration x) tf (le_of_lt hpos)
      (derived_stop_after r.ctx timeout now fl pf _ hquiet hT)]
  rfl

theorem wrapped_504 (timeout : Int) (fl : Fin 1000000000) (pf : Bool) (x : ℚ) (tf : Bool)
    (w : ResponseWriter) (r : Request) (now : Int)
    (hlong : timeout + closeDelay fl < taskDuration x)
    (hwf : r.ctx.wellFormed fl = true)
    (hq : ∀ tp, r.ctx.stop = some (tp, Reason.cancelled) →
      now < tp ∧ now + timeout + closeDelay fl < tp) :
    (contextMiddleware timeout fl pf (longRunningTaskHandler x tf) w r now).w =
      w ++ [RespEvent.writeHeader 504] := by
  have hpos := taskDuration_pos x
  obtain ⟨ts, hs, hts⟩ := derived_stops_by_deadline r.ctx timeout now fl pf hwf hq
  rw [wrapped_served,
    await_done_first _ now (taskDuration x) tf ts Reason.deadline hs hpos (by omega)]
  rfl

theorem wrapped_200_or_504 (timeout : Int) (fl : Fin 1000000000) (pf : Bool) (x : ℚ)
    (tf : Bool) (w : ResponseWriter) (r : Request) (now : Int)
    (hq : ∀ tp rp, r.ctx.stop = some (tp, rp) → rp = Reason.deadline) :
    (contextMiddleware timeout fl pf (longRunningTaskHandler x tf) w r now).w =
        w ++ [RespEvent.writeHeader 200] ∨
      (contextMiddleware timeout fl pf (longRunningTaskHandler x tf) w r now).w =
        w ++ [RespEvent.writeHeader 504] := by
  rw [wrapped_served]
  rcases await_result (withTimeout r.ctx timeout now fl pf) now (taskDuration x) tf with
    h | ⟨ts, rs, hs, h⟩
  · left; rw [h]; rfl
  · right
    rw [h, derived_reason_deadline r.ctx timeout now fl pf hq ts rs hs]
    rfl

theorem unreleased_run (timeout : Int) (next : Handler) (fl : Fin 1000000000) (pf : Bool)
    (w : ResponseWriter) (r : Request) (now : Int) (live : List Scope) (rest : List Event) :
    unreleased live ((contextMiddlewareRun timeout next fl pf w r now).trace ++ rest) =
      unreleased live rest := by
  simp [contextMiddlewareRun, unreleased]

theorem unreleased_serveAll (timeout : Int) (next : Handler) (qs : List Inbound) :
    ∀ live : List Scope, unreleased live (serveAll timeout next qs) = live := by
  induction qs with
  | nil => intro live; rfl
  | cons q qs ih =>
    intro live
    unfold serveAll
    rw [unreleased_run]
    exact ih live

/-! ## The request handler -/

/-- C1: for every result of `longRunningTask` the handler writes status 200 when
the result is nil, status 504 when it is an error that is
`context.DeadlineExceeded`, and status 500 for every other error,
`context.Canceled` included. The result of the task is one of nil,
`DeadlineExceeded` and `Canceled`, and any error value is classified by
`errors.Is` alone. -/
theorem handler_status_by_result (x : ℚ) (tf : Bool) (w : ResponseWriter) (r : Request)
    (start : Int) :
    (((longRunningTask r.ctx start x tf).1 = none ∧
        (longRunningTaskHandler x tf w r start).w = w ++ [RespEvent.writeHeader 200]) ∨
      ((longRunningTask r.ctx start x tf).1 = some GoError.deadlineExceeded ∧
        (longRunningTaskHandler x tf w r start).w = w ++ [RespEvent.writeHeader 504]) ∨
      ((longRunningTask r.ctx start x tf).1 = some GoError.canceled ∧
        (longRunningTaskHandler x tf w r start).w = w ++ [RespEvent.writeHeader 500])) ∧
    (longRunningTaskHandler x tf w r start).w =
      writeOutcome w (longRunningTask r.ctx start x tf).1 ∧
    writeOutcome w none = w ++ [RespEvent.writeHeader 200] ∧
    (∀ e : GoError, writeOutcome w (some e) =
      w ++ [RespEvent.writeHeader (if errorsIs e GoError.deadlineExceeded then 504 else 500)]) ∧
    errorsIs GoError.deadlineExceeded GoError.deadlineExceeded = true ∧
    errorsIs GoError.canceled GoError.deadlineExceeded = false := by
  refine ⟨?_, rfl, rfl, ?_, rfl, rfl⟩
  · show (_ ∧ writeOutcome w _ = _) ∨ (_ ∧ writeOutcome w _ = _) ∨ (_ ∧ writeOutcome w _ = _)
    unfold longRunningTask
    rcases await_result r.ctx start (taskDuration x) tf with h | ⟨ts, rs, -, h⟩
    · left; rw [h]; exact ⟨rfl, rfl⟩
    · cases rs with
      | deadline => right; left; rw [h]; exact ⟨rfl, rfl⟩
      | cancelled => right; right; rw [h]; exact ⟨rfl, rfl⟩
  · intro e
    unfold writeOutcome
    dsimp only
    split_ifs <;> rfl

/-- C6: for every request and every outcome of the task the handler calls
`WriteHeader` exactly once, with 200, 500 or 504, and never calls `Write`; on a
response nothing was written to before, that one status is the status of the
response. -/
theorem handler_writes_status_once (x : ℚ) (tf : Bool) (w : ResponseWriter) (r : Request)
    (start : Int) (err : Option GoError) :
    (∃ c, (c = 200 ∨ c = 500 ∨ c = 504) ∧ writeOutcome w err = w ++ [RespEvent.writeHeader c] ∧
      responseStatus (writeOutcome [] err) = some c) ∧
    headerWrites (writeOutcome w err) = headerWrites w + 1 ∧
    bodyWrites (writeOutcome w err) = bodyWrites w ∧
    (∃ c, (c = 200 ∨ c = 500 ∨ c = 504) ∧
      (longRunningTaskHandler x tf w r start).w = w ++ [RespEvent.writeHeader c] ∧
      responseStatus (longRunningTaskHandler x tf [] r start).w = some c) ∧
    headerWrites (longRunningTaskHandler x tf w r start).w = headerWrites w + 1 ∧
    bodyWrites (longRunningTaskHandler x tf w r start).w = bodyWrites w ∧
    (longRunningTaskHandler x tf w r start).how = ExitKind.returned := by
  have key : ∀ (v : ResponseWriter) (e : Option GoError),
      ∃ c, (c = 200 ∨ c = 500 ∨ c = 504) ∧ writeOutcome v e = v ++ [RespEvent.writeHeader c] := by
    intro v e
    unfold writeOutcome
    cases e with
    | none => exact ⟨200, Or.inl rfl, rfl⟩
    | some e =>
      dsimp only
      split_ifs
      · exact ⟨504, Or.inr (Or.inr rfl), rfl⟩
      · exact ⟨500, Or.inr (Or.inl rfl), rfl⟩
  have hdr : ∀ (v : ResponseWriter) (e : Option GoError),
      headerWrites (writeOutcome v e) = headerWrites v + 1 := by
    intro v e
    obtain ⟨c, -, hc⟩ := key v e
    rw [hc]
    simp [headerWrites]
  have bdy : ∀ (v : ResponseWriter) (e : Option GoError),
      bodyWrites (writeOutcome v e) = bodyWrites v := by
    intro v e
    obtain ⟨c, -, hc⟩ := key v e
    rw [hc]
    simp [bodyWrites]
  have one : ∀ (e : Option GoError), ∃ c, (c = 200 ∨ c = 500 ∨ c = 504) ∧
      writeOutcome w e = w ++ [RespEvent.writeHeader c] ∧
      responseStatus (writeOutcome [] e) = some c := by
    intro e
    obtain ⟨c, hc, hw⟩ := key w e
    obtain ⟨c2, -, hw2⟩ := key [] e
    refine ⟨c, hc, hw, ?_⟩
    have h3 : writeOutcome w e = w ++ writeOutcome [] e := by
      unfold writeOutcome
      cases e with
      | none => simp
      | some e => dsimp only; split_ifs <;> simp
    rw [hw2] at h3 ⊢
    rw [hw] at h3
    have h4 := List.append_cancel_left h3
    simp at h4
    simp [responseStatus, h4]
  exact ⟨one err, hdr w err, bdy w err, one _, hdr w _, bdy w _, rfl⟩

/-! ## The simulated task -/

/-- C10, the claim as stated fails: with the draw 0 and a scope that never
stops the task reports success after 1 second, not after 10 seconds. -/
theorem task_wait_not_always_ten_seconds :
    taskDuration 0 = 1 * second ∧
    (longRunningTask background 0 0 true).1 = none ∧
    (longRunningTask background 0 0 true).2 - 0 = 1 * second ∧
    (longRunningTask background 0 0 true).2 - 0 ≠ 10 * second := by
  have h : taskDuration 0 = 1 * second := taskDuration_short 0 (by norm_num)
  have h2 : longRunningTask background 0 0 true = (none, 0 + 1 * second) := by
    unfold longRunningTask
    rw [h]
    exact await_timer_first background 0 (1 * second) true (by decide) (by intro ts r hs; cases hs)
  rw [h2]
  exact ⟨h, rfl, by decide, by decide⟩

/-- C10, amended: the duration the task waits for before reporting success is
10 seconds when the draw is above 0.5 and 1 second otherwise. Whenever the task
reports success it returns that long after it was entered, and on a scope that
never stops it always reports success. -/
theorem task_wait_by_draw (ctx : Scope) (start : Int) (x : ℚ) (tf : Bool) :
    (((longRunningTask ctx start x tf).1 = none ∧
        (longRunningTask ctx start x tf).2 =
          start + (if x > 1 / 2 then 10 * second else 1 * second)) ∨
      ∃ e, (longRunningTask ctx start x tf).1 = some e) ∧
    longRunningTask background start x tf =
      (none, start + (if x > 1 / 2 then 10 * second else 1 * second)) := by
  have hd : taskDuration x = (if x > 1 / 2 then 10 * second else 1 * second) := rfl
  have hpos : (0 : Int) ≤ taskDuration x := by
    rcases taskDuration_cases x with h | h <;> rw [h] <;> decide
  have hm : timerReady start (taskDuration x) = start + taskDuration x := by
    unfold timerReady
    exact max_eq_left (le_add_of_nonneg_right hpos)
  constructor
  · rw [← hd]
    unfold longRunningTask awaitTimerOrDone
    cases hs : ctx.stop with
    | none => left; exact ⟨rfl, hm⟩
    | some p =>
      obtain ⟨ts, r⟩ := p
      dsimp only
      split_ifs
      · left; exact ⟨rfl, hm⟩
      · right; exact ⟨_, rfl⟩
      · left; exact ⟨rfl, hm⟩
      · right; exact ⟨_, rfl⟩
  · rw [← hd]
    unfold longRunningTask
    exact await_timer_first background start (taskDuration x) tf hpos
      (by intro ts r hs; cases hs)

/-- C5, the claim as stated fails: the scope stops at the very instant the
1 second timer fires, so the duration did not elapse before the scope stopped
and `ctx.Err()` is `DeadlineExceeded` at that instant; `select` may still take
the timer, and the task then returns nil. -/
theorem task_race_tie_returns_nil :
    ¬ (timerReady 0 (taskDuration 0) <
        doneReady 0 1000000000) ∧
    Scope.errAt { deadline := some 1000000000, stop := some (1000000000, Reason.deadline) }
        (timerReady 0 (taskDuration 0)) = some GoError.deadlineExceeded ∧
    (longRunningTask { deadline := some 1000000000, stop := some (1000000000, Reason.deadline) }
        0 0 true).1 = none := by
  have h : taskDuration 0 = 1000000000 := taskDuration_short 0 (by norm_num)
  unfold longRunningTask
  rw [h]
  exact ⟨by decide, by decide, by decide⟩

/-- C5, amended: for every duration and every scope, the task returns nil when
the timer is ready strictly before the scope is stopped (or the scope never
stops); it returns exactly the scope's error when the scope is stopped strictly
before the timer is ready; when both are ready at the same instant `select`
takes either one and the task returns nil or the scope's error. The scope's error
is `DeadlineExceeded` when it stopped by deadline expiry and `Canceled`, which is
not `DeadlineExceeded`, otherwise. -/
theorem task_race_outcome (ctx : Scope) (start : Int) (d : Int) (tf : Bool) (x : ℚ) :
    (ctx.stop = none → awaitTimerOrDone ctx start d tf = (none, timerReady start d)) ∧
    (∀ ts r, ctx.stop = some (ts, r) →
      (timerReady start d < doneReady start ts →
        awaitTimerOrDone ctx start d tf = (none, timerReady start d)) ∧
      (doneReady start ts < timerReady start d →
        awaitTimerOrDone ctx start d tf = (some r.err, doneReady start ts) ∧
        ctx.errAt (doneReady start ts) = some r.err) ∧
      (timerReady start d = doneReady start ts →
        (awaitTimerOrDone ctx start d tf).1 = none ∨
        (awaitTimerOrDone ctx start d tf).1 = some r.err)) ∧
    Reason.deadline.err = GoError.deadlineExceeded ∧
    Reason.cancelled.err = GoError.canceled ∧
    errorsIs Reason.deadline.err GoError.deadlineExceeded = true ∧
    errorsIs Reason.cancelled.err GoError.deadlineExceeded = false ∧
    longRunningTask ctx start x tf = awaitTimerOrDone ctx start (taskDuration x) tf ∧
    timerReady start (taskDuration x) = start + taskDuration x := by
  refine ⟨?_, ?_, rfl, rfl, rfl, rfl, rfl, ?_⟩
  · intro hs
    unfold awaitTimerOrDone
    rw [hs]
  · intro ts r hs
    refine ⟨?_, ?_, ?_⟩
    · intro h
      unfold awaitTimerOrDone
      rw [hs]
      dsimp only
      rw [if_pos h]
    · intro h
      constructor
      · unfold awaitTimerOrDone
        rw [hs]
        dsimp only
        rw [if_neg (not_lt.mpr (le_of_lt h)), if_pos h]
      · unfold Scope.errAt
        rw [hs]
        dsimp only
        rw [if_pos (show ts ≤ doneReady start ts from le_max_left ts start)]
    · intro _
      rcases await_result ctx start d tf with h | ⟨ts2, r2, hs2, h⟩
      · left; exact h
      · right
        rw [hs] at hs2
        cases hs2
        exact h
  · unfold timerReady
    have hpos : (0 : Int) ≤ taskDuration x := by
      rcases taskDuration_cases x with h | h <;> rw [h] <;> decide
    exact max_eq_left (le_add_of_nonneg_right hpos)

/-- The amended C5 at a scope stopped by its deadline two seconds before the
10 second timer fires. -/
theorem task_race_outcome_witness :
    awaitTimerOrDone { deadline := some 8000000000, stop := some (8000000000, Reason.deadline) }
        0 10000000000 true = (some GoError.deadlineExceeded, 8000000000) ∧
    Scope.errAt { deadline := some 8000000000, stop := some (8000000000, Reason.deadline) }
        (doneReady 0 8000000000) = some GoError.deadlineExceeded :=
  (((task_race_outcome
      { deadline := some 8000000000, stop := some (8000000000, Reason.deadline) }
      0 10000000000 true 0).2.1 8000000000 Reason.deadline rfl).2.1 (by decide))

/-! ## The handler behind the middleware -/

/-- C2, the claim as stated fails: the task duration is 1 second and the timeout
5 seconds, but the incoming scope is cancelled after half a second; the task
returns `Canceled` and the status is 500, not 200. -/
theorem short_task_not_always_200 :
    taskDuration 0 ≤ mainTimeout ∧
    (contextMiddleware mainTimeout 20000 false (longRunningTaskHandler 0 true) []
        { ctx := { deadline := none, stop := some (500000000, Reason.cancelled) },
          method := "GET", path := "/" } 0).w =
      [RespEvent.writeHeader 500] := by
  have h : taskDuration 0 = 1000000000 := taskDuration_short 0 (by norm_num)
  rw [wrapped_served, h]
  exact ⟨by decide, by decide⟩

/-- C2, amended: for every timeout and every request handled by
`contextMiddleware(timeout)` wrapping `longRunningTaskHandler`, if the task
duration is less than or equal to the timeout, equality included, and the
incoming scope has not stopped by the time the timer of the task fires, the
handler writes status 200. -/
theorem short_task_status_200 (timeout : Int) (fl : Fin 1000000000) (pf : Bool) (x : ℚ)
    (tf : Bool) (w : ResponseWriter) (r : Request) (now : Int)
    (hle : taskDuration x ≤ timeout)
    (hquiet : ∀ tp rp, r.ctx.stop = some (tp, rp) → now + taskDuration x < tp) :
    (contextMiddleware timeout fl pf (longRunningTaskHandler x tf) w r now).w =
      w ++ [RespEvent.writeHeader 200] :=
  wrapped_200 timeout fl pf x tf w r now hle hquiet

/-- The amended C2 at a timeout equal to the task duration: timeout 1 second,
draw 0, an incoming scope that is cancelled two microseconds after the timer
fires. -/
theorem short_task_status_200_witness :
    (contextMiddleware second 20000 false (longRunningTaskHandler 0 false) []
        { ctx := { deadline := none, stop := some (1000002000, Reason.cancelled) },
          method := "GET", path := "/" } 0).w =
      [] ++ [RespEvent.writeHeader 200] :=
  short_task_status_200 second 20000 false 0 false []
    { ctx := { deadline := none, stop := some (1000002000, Reason.cancelled) },
      method := "GET", path := "/" } 0
    (by rw [taskDuration_short 0 (by norm_num)]; decide)
    (by
      intro tp rp h
      rw [taskDuration_short 0 (by norm_num)]
      simp only [Option.some.injEq, Prod.mk.injEq] at h
      rw [← h.1]
      decide)

/-- C3, the claim as stated fails. The task duration is 10 seconds and the
timeout 5 seconds, but the incoming scope is explicitly cancelled after
1 second, or is already cancelled when the request arrives: the handler gets
`Canceled` and writes status 500. And with a timeout one nanosecond below the
task duration (10 seconds, and 1 second) and an incoming scope that never stops,
the timer of the task is delivered before the goroutine of the expired deadline
closes `Done()`: status 200. -/
theorem long_task_not_always_504 :
    taskDuration (3 / 4) > mainTimeout ∧
    (contextMiddleware mainTimeout 20000 false (longRunningTaskHandler (3 / 4) false) []
        { ctx := { deadline := none, stop := some (1000000000, Reason.cancelled) },
          method := "GET", path := "/" } 0).w =
      [RespEvent.writeHeader 500] ∧
    (contextMiddleware mainTimeout 20000 false (longRunningTaskHandler (3 / 4) false) []
        { ctx := { deadline := none, stop := some (-1, Reason.cancelled) },
          method := "GET", path := "/" } 0).w =
      [RespEvent.writeHeader 500] ∧
    taskDuration (3 / 4) > 9999999999 ∧
    (contextMiddleware 9999999999 20000 false (longRunningTaskHandler (3 / 4) false) []
        { ctx := background, method := "GET", path := "/" } 0).w =
      [RespEvent.writeHeader 200] ∧
    taskDuration 0 > 999999999 ∧
    (contextMiddleware 999999999 20000 false (longRunningTaskHandler 0 false) []
        { ctx := background, method := "GET", path := "/" } 0).w =
      [RespEvent.writeHeader 200] := by
  have h : taskDuration (3 / 4) = 10000000000 := taskDuration_long (3 / 4) (by norm_num)
  have h0 : taskDuration 0 = 1000000000 := taskDuration_short 0 (by norm_num)
  rw [wrapped_served, wrapped_served, wrapped_served, wrapped_served, h, h0]
  exact ⟨by decide, by decide, by decide, by decide, by decide, by decide, by decide⟩

/-- C3, amended: for every timeout and every request handled by
`contextMiddleware(timeout)` wrapping `longRunningTaskHandler`, if the task
duration exceeds the timeout by more than the delay with which the expired
deadline closes `Done()` (the latency of the goroutine that closes it),
the handler writes status 504, provided the incoming scope is not explicitly
cancelled when the scope is derived at `now` nor before the deadline has closed
`Done()` (an incoming scope that carries a deadline stops by it). -/
theorem long_task_status_504 (timeout : Int) (fl : Fin 1000000000) (pf : Bool) (x : ℚ)
    (tf : Bool) (w : ResponseWriter) (r : Request) (now : Int)
    (hlong : timeout + closeDelay fl < taskDuration x)
    (hwf : r.ctx.wellFormed fl = true)
    (hq : ∀ tp, r.ctx.stop = some (tp, Reason.cancelled) →
      now < tp ∧ now + timeout + closeDelay fl < tp) :
    (contextMiddleware timeout fl pf (longRunningTaskHandler x tf) w r now).w =
      w ++ [RespEvent.writeHeader 504] :=
  wrapped_504 timeout fl pf x tf w r now hlong hwf hq

/-- The amended C3 at the wiring of `main`: timeout 5 seconds, a draw above 0.5,
an incoming scope that never stops. -/
theorem long_task_status_504_witness :
    (contextMiddleware mainTimeout 20000 false (longRunningTaskHandler (3 / 4) false) []
        { ctx := background, method := "GET", path := "/" } 0).w =
      [] ++ [RespEvent.writeHeader 504] :=
  long_task_status_504 mainTimeout 20000 false (3 / 4) false []
    { ctx := background, method := "GET", path := "/" } 0
    (by rw [taskDuration_long (3 / 4) (by norm_num)]; decide)
    (by decide)
    (by intro tp h; cases h)

/-- C4, the claim as stated fails: with the timeout of 5 seconds, the draw 0.5
chooses 1 second, but the incoming scope is cancelled after a quarter of a
second and the status is 500, not 200; the draw 0.75 chooses 10 seconds, but the
incoming scope is cancelled after 2 seconds and the status is 500, not 504. -/
theorem main_wiring_status_depends_on_incoming_scope :
    taskDuration (1 / 2) = 1 * second ∧ taskDuration (3 / 4) = 10 * second ∧
    (contextMiddleware mainTimeout 20000 false (longRunningTaskHandler (1 / 2) false) []
        { ctx := { deadline := none, stop := some (250000000, Reason.cancelled) },
          method := "GET", path := "/" } 0).w =
      [RespEvent.writeHeader 500] ∧
    (contextMiddleware mainTimeout 20000 false (longRunningTaskHandler (3 / 4) false) []
        { ctx := { deadline := none, stop := some (2000000000, Reason.cancelled) },
          method := "GET", path := "/" } 0).w =
      [RespEvent.writeHeader 500] := by
  have h1 : taskDuration (1 / 2) = 1000000000 := taskDuration_short (1 / 2) (le_refl _)
  have h2 : taskDuration (3 / 4) = 10000000000 := taskDuration_long (3 / 4) (by norm_num)
  rw [wrapped_served, wrapped_served, h1, h2]
  exact ⟨by decide, by decide, by decide, by decide⟩

/-- C4, amended: with the timeout of 5 seconds of `main`, for every draw `x`: when
`x > 0.5` the task chooses 10 seconds, and the status is 504 provided the
incoming scope is not explicitly cancelled before the 5 second deadline has
closed `Done()` (an incoming scope that carries a deadline stops by it);
otherwise, 0.5 included, the task chooses 1 second, and the status is 200
provided the incoming scope has not stopped by the time the 1 second timer
fires. The chosen duration is always 1 second or 10 seconds and never the
5 second timeout. -/
theorem main_wiring_status_by_draw (fl : Fin 1000000000) (pf : Bool) (x : ℚ) (tf : Bool)
    (w : ResponseWriter) (r : Request) (now : Int) :
    (x > 1 / 2 → taskDuration x = 10 * second) ∧
    (x > 1 / 2 → r.ctx.wellFormed fl = true →
      (∀ tp, r.ctx.stop = some (tp, Reason.cancelled) → now + mainTimeout + closeDelay fl < tp) →
      (contextMiddleware mainTimeout fl pf (longRunningTaskHandler x tf) w r now).w =
        w ++ [RespEvent.writeHeader 504]) ∧
    (x ≤ 1 / 2 → taskDuration x = 1 * second) ∧
    (x ≤ 1 / 2 →
      (∀ tp rp, r.ctx.stop = some (tp, rp) → now + 1 * second < tp) →
      (contextMiddleware mainTimeout fl pf (longRunningTaskHandler x tf) w r now).w =
        w ++ [RespEvent.writeHeader 200]) ∧
    (taskDuration x = 1 * second ∨ taskDuration x = 10 * second) ∧
    taskDuration x ≠ mainTimeout := by
  have hm : mainTimeout = 5000000000 := rfl
  have hsec : second = 1000000000 := rfl
  have hfl := closeDelay_le fl
  have hcd := closeDelay_pos fl
  rw [hm, hsec]
  refine ⟨?_, ?_, ?_, ?_, ?_, ?_⟩
  · intro hx
    exact taskDuration_long x hx
  · intro hx hwf hq
    have hd : taskDuration x = 10 * 1000000000 := taskDuration_long x hx
    refine wrapped_504 5000000000 fl pf x tf w r now (by omega) hwf ?_
    intro tp hs
    have := hq tp hs
    omega
  · intro hx
    exact taskDuration_short x hx
  · intro hx hq
    have hd : taskDuration x = 1 * 1000000000 := taskDuration_short x hx
    refine wrapped_200 5000000000 fl pf x tf w r now (by omega) ?_
    intro tp rp hs
    have := hq tp rp hs
    omega
  · rcases taskDuration_cases x with h | h
    · right; rw [h]; decide
    · left; rw [h]; decide
  · rcases taskDuration_cases x with h | h <;> rw [h] <;> decide

/-- The amended C4 at the draw 0.5 with an incoming scope cancelled two
microseconds after the 1 second timer fires, and at the draw 0.75 with an
incoming scope stopped by a deadline of its own after 3 seconds. -/
theorem main_wiring_status_by_draw_witness :
    (contextMiddleware mainTimeout 20000 false (longRunningTaskHandler (1 / 2) false) []
        { ctx := { deadline := none, stop := some (1000002000, Reason.cancelled) },
          method := "GET", path := "/" } 0).w =
      [] ++ [RespEvent.writeHeader 200] ∧
    (contextMiddleware mainTimeout 20000 false (longRunningTaskHandler (3 / 4) false) []
        { ctx := { deadline := some 3000000000,
                   stop := some (3000020001, Reason.deadline) },
          method := "GET", path := "/" } 0).w =
      [] ++ [RespEvent.writeHeader 504] :=
  ⟨(main_wiring_status_by_draw 20000 false (1 / 2) false []
      { ctx := { deadline := none, stop := some (1000002000, Reason.cancelled) },
        method := "GET", path := "/" } 0).2.2.2.1 (le_refl _)
      (by
        intro tp rp h
        simp only [Option.some.injEq, Prod.mk.injEq] at h
        rw [← h.1]
        decide),
    (main_wiring_status_by_draw 20000 false (3 / 4) false []
      { ctx := { deadline := some 3000000000, stop := some (3000020001, Reason.deadline) },
        method := "GET", path := "/" } 0).2.1 (by norm_num) (by decide)
      (by
        intro tp h
        simp only [Option.some.injEq, Prod.mk.injEq] at h
        exact absurd h.2 (by decide))⟩

/-- C7: when the incoming scope is never explicitly cancelled (it never stops,
or stops by a deadline of its own), then for every timeout and every draw the
wrapped handler writes status 200 or status 504 and never status 500. -/
theorem no_500_without_explicit_cancel (timeout : Int) (fl : Fin 1000000000) (pf : Bool)
    (x : ℚ) (tf : Bool) (w : ResponseWriter) (r : Request) (now : Int)
    (hq : ∀ tp rp, r.ctx.stop = some (tp, rp) → rp = Reason.deadline) :
    ((contextMiddleware timeout fl pf (longRunningTaskHandler x tf) w r now).w =
        w ++ [RespEvent.writeHeader 200] ∨
      (contextMiddleware timeout fl pf (longRunningTaskHandler x tf) w r now).w =
        w ++ [RespEvent.writeHeader 504]) ∧
    (contextMiddleware timeout fl pf (longRunningTaskHandler x tf) w r now).w ≠
      w ++ [RespEvent.writeHeader 500] := by
  have h := wrapped_200_or_504 timeout fl pf x tf w r now hq
  refine ⟨h, ?_⟩
  intro h5
  rcases h with h | h <;> rw [h] at h5 <;> simp at h5

/-- C7 at an incoming scope that stops by its own deadline after 2 seconds. -/
theorem no_500_without_explicit_cancel_witness :
    ((contextMiddleware mainTimeout 20000 false (longRunningTaskHandler (3 / 4) false) []
        { ctx := { deadline := some 2000000000, stop := some (2000000000, Reason.deadline) },
          method := "GET", path := "/" } 0).w =
        [] ++ [RespEvent.writeHeader 200] ∨
      (contextMiddleware mainTimeout 20000 false (longRunningTaskHandler (3 / 4) false) []
        { ctx := { deadline := some 2000000000, stop := some (2000000000, Reason.deadline) },
          method := "GET", path := "/" } 0).w =
        [] ++ [RespEvent.writeHeader 504]) ∧
    (contextMiddleware mainTimeout 20000 false (longRunningTaskHandler (3 / 4) false) []
        { ctx := { deadline := some 2000000000, stop := some (2000000000, Reason.deadline) },
          method := "GET", path := "/" } 0).w ≠
      [] ++ [RespEvent.writeHeader 500] :=
  no_500_without_explicit_cancel mainTimeout 20000 false (3 / 4) false []
    { ctx := { deadline := some 2000000000, stop := some (2000000000, Reason.deadline) },
      method := "GET", path := "/" } 0
    (by intro tp rp h; simp only [Option.some.injEq, Prod.mk.injEq] at h; exact h.2.symm)

/-! ## The middleware -/

/-- C8, the claim as stated fails: the incoming scope already carries a
deadline 1 second after `now`, the timeout is 5 seconds; `next` is called once,
with a request whose scope has the deadline of the incoming scope, not
`now + timeout`. -/
theorem derived_deadline_keeps_earlier_parent_deadline :
    (contextMiddlewareRun mainTimeout (fun w _ t => { w := w, how := ExitKind.returned, finish := t })
        20000 false []
        { ctx := { deadline := some 1000000000, stop := some (1000000000, Reason.deadline) },
          method := "GET", path := "/" } 0).trace.filter Event.isEnter =
      [Event.enter
        { ctx := { deadline := some 1000000000, stop := some (1000000000, Reason.deadline) },
          method := "GET", path := "/" } 0] ∧
    (withTimeout { deadline := some 1000000000, stop := some (1000000000, Reason.deadline) }
        mainTimeout 0 20000 false).deadline = some 1000000000 ∧
    (withTimeout { deadline := some 1000000000, stop := some (1000000000, Reason.deadline) }
        mainTimeout 0 20000 false).deadline ≠ some (0 + mainTimeout) := by
  exact ⟨by decide, by decide, by decide⟩

/-- C8, amended: for every next handler, timeout, incoming scope and instant
`now`, the handler returned by `contextMiddleware(timeout)(next)` calls `next`
exactly once, with the request rebound to the scope derived from the incoming
scope, and what it leaves behind is what `next` left. The deadline of the
derived scope is `now + timeout`, unless the incoming scope already carries an
earlier deadline, which the derived scope then keeps. The derived scope never
outlives the incoming one: it stops no later than the incoming scope stops. -/
theorem middleware_calls_next_once (timeout : Int) (next : Handler) (fl : Fin 1000000000)
    (pf : Bool) (w : ResponseWriter) (r : Request) (now : Int) :
    (contextMiddlewareRun timeout next fl pf w r now).trace.filter Event.isEnter =
      [Event.enter (r.withContext (withTimeout r.ctx timeout now fl pf)) now] ∧
    (r.withContext (withTimeout r.ctx timeout now fl pf)).ctx =
      withTimeout r.ctx timeout now fl pf ∧
    contextMiddleware timeout fl pf next w r now =
      next w (r.withContext (withTimeout r.ctx timeout now fl pf)) now ∧
    (withTimeout r.ctx timeout now fl pf).deadline =
      some (match r.ctx.deadline with
        | some cur => if cur < now + timeout then cur else now + timeout
        | none => now + timeout) ∧
    (∀ tp rp, r.ctx.stop = some (tp, rp) →
      ∃ tc rc, (withTimeout r.ctx timeout now fl pf).stop = some (tc, rc) ∧ tc ≤ tp) ∧
    (∀ t, r.ctx.stoppedAt t = true →
      (withTimeout r.ctx timeout now fl pf).stoppedAt t = true) := by
  refine ⟨rfl, rfl, rfl, derived_deadline r.ctx timeout now fl pf,
    derived_stops_no_later r.ctx timeout now fl pf, ?_⟩
  intro t ht
  unfold Scope.stoppedAt at ht
  cases hs : r.ctx.stop with
  | none => rw [hs] at ht; cases ht
  | some p =>
    obtain ⟨tp, rp⟩ := p
    rw [hs] at ht
    have hle : tp ≤ t := of_decide_eq_true ht
    obtain ⟨tc, rc, hc, hcle⟩ := derived_stops_no_later r.ctx timeout now fl pf tp rp hs
    unfold Scope.stoppedAt
    rw [hc]
    exact decide_eq_true (le_trans hcle hle)

/-- The amended C8 at an incoming scope cancelled after 7 seconds and a timeout
of 5 seconds: the derived scope stops at its deadline, before the incoming one. -/
theorem middleware_calls_next_once_witness :
    ∃ tc rc,
      (withTimeout { deadline := none, stop := some (7000000000, Reason.cancelled) }
        mainTimeout 0 20000 false).stop = some (tc, rc) ∧ tc ≤ 7000000000 :=
  (middleware_calls_next_once mainTimeout (longRunningTaskHandler 0 false) 20000 false []
    { ctx := { deadline := none, stop := some (7000000000, Reason.cancelled) },
      method := "GET", path := "/" } 0).2.2.2.2.1 7000000000 Reason.cancelled rfl

/-- C9: for every next handler the middleware calls `cancel` on the derived scope
once, after the call of `next` has come back and at the instant it came back,
whether `next` returned or panicked (a panic keeps unwinding after the release).
The scope handed to `next` is the derived scope before `cancel`; after `cancel`
the scope is stopped. After one request, and after any number of requests served
one after the other, no derived scope is left unreleased. -/
theorem middleware_releases_after_next (timeout : Int) (next : Handler)
    (fl : Fin 1000000000) (pf : Bool) (w : ResponseWriter) (r : Request) (now : Int)
    (live : List Scope) (qs : List Inbound) :
    (contextMiddlewareRun timeout next fl pf w r now).trace =
      [Event.derive (withTimeout r.ctx timeout now fl pf) now,
        Event.enter (r.withContext (withTimeout r.ctx timeout now fl pf)) now,
        Event.leave (next w (r.withContext (withTimeout r.ctx timeout now fl pf)) now).how
          (next w (r.withContext (withTimeout r.ctx timeout now fl pf)) now).finish,
        Event.release (withTimeout r.ctx timeout now fl pf)
          (next w (r.withContext (withTimeout r.ctx timeout now fl pf)) now).finish] ∧
    (contextMiddlewareRun timeout next fl pf w r now).trace.filter Event.isRelease =
      [Event.release (withTimeout r.ctx timeout now fl pf)
        (next w (r.withContext (withTimeout r.ctx timeout now fl pf)) now).finish] ∧
    (contextMiddlewareRun timeout next fl pf w r now).served.how =
      (next w (r.withContext (withTimeout r.ctx timeout now fl pf)) now).how ∧
    ((withTimeout r.ctx timeout now fl pf).cancel
        (next w (r.withContext (withTimeout r.ctx timeout now fl pf)) now).finish).stoppedAt
      (next w (r.withContext (withTimeout r.ctx timeout now fl pf)) now).finish = true ∧
    unreleased live (contextMiddlewareRun timeout next fl pf w r now).trace = live ∧
    unreleased live (serveAll timeout next qs) = live := by
  refine ⟨rfl, rfl, rfl, ?_, ?_, unreleased_serveAll timeout next qs live⟩
  · generalize (next w (r.withContext (withTimeout r.ctx timeout now fl pf)) now).finish = fin
    generalize withTimeout r.ctx timeout now fl pf = ctx
    unfold Scope.cancel
    cases hs : ctx.stop with
    | none => simp [Scope.stoppedAt]
    | some p =>
      obtain ⟨ts, rs⟩ := p
      dsimp only
      by_cases h : ts ≤ fin
      · rw [if_pos h]
        unfold Scope.stoppedAt
        rw [hs]
        exact decide_eq_true h
      · rw [if_neg h]
        simp [Scope.stoppedAt]
  · have h := unreleased_run timeout next fl pf w r now live []
    rw [List.append_nil] at h
    exact h

end HttpHandlerContext
